import Mathlib

/-
Verification of the robust-skin-weights-transfer pipeline.

The host script `src/main.py` loads two OBJ meshes, cleans them, derives
per-vertex normals, runs the three-stage transfer pipeline
(Matcher → Inpainter → Smoother) and serialises the target mesh to JSON.
The three core routines live in the `utilities` module, which is not part
of the sources available here; they are modelled from the specification
(each such definition is marked `Modelled from the spec:`).

Numbers: the Python code computes with floating point.  We embed numeric
values as exact fractions `Frac` (integer numerator and denominator, no
normalisation), so every definition is executable by the kernel.  `Frac.toRat`
maps a fraction to `ℚ` and `Frac.le_iff_toRat` shows the comparison used by
the embedding agrees with the rational order whenever denominators are
positive, which all constructions here maintain.
-/

/-- Exact fraction: numerator and denominator, kept unnormalised so that all
arithmetic is structural and kernel-computable.  All values built by the
development have a positive denominator. -/
structure Frac where
  n : Int
  d : Int
deriving DecidableEq, Repr

/-- Sign-normalising constructor: keeps the denominator positive when the
given denominator is nonzero. -/
def Frac.mk' (n d : Int) : Frac :=
  if d < 0 then ⟨-n, -d⟩ else ⟨n, d⟩

def Frac.add (a b : Frac) : Frac := ⟨a.n * b.d + b.n * a.d, a.d * b.d⟩

def Frac.sub (a b : Frac) : Frac := ⟨a.n * b.d - b.n * a.d, a.d * b.d⟩

def Frac.mul (a b : Frac) : Frac := ⟨a.n * b.n, a.d * b.d⟩

def Frac.div (a b : Frac) : Frac := Frac.mk' (a.n * b.d) (a.d * b.n)

def Frac.neg (a : Frac) : Frac := ⟨-a.n, a.d⟩

/-- Order test by cross multiplication; correct whenever both denominators
are positive (`Frac.le_iff_toRat`). -/
def Frac.le (a b : Frac) : Bool := decide (a.n * b.d ≤ b.n * a.d)

instance : Add Frac := ⟨Frac.add⟩
instance : Sub Frac := ⟨Frac.sub⟩
instance : Mul Frac := ⟨Frac.mul⟩
instance : Div Frac := ⟨Frac.div⟩
instance : Neg Frac := ⟨Frac.neg⟩
instance (k : ℕ) : OfNat Frac k := ⟨⟨(k : Int), 1⟩⟩

/-- The rational value denoted by a fraction. -/
def Frac.toRat (a : Frac) : ℚ := (a.n : ℚ) / (a.d : ℚ)

/-- 3D point / vector. -/
abbrev Vec3 := Frac × Frac × Frac

/-- Triangle as a triple of vertex indices. -/
abbrev Face := ℕ × ℕ × ℕ

/-- Texture coordinate. -/
abbrev UV := Frac × Frac

def v3zero : Vec3 := (⟨0, 1⟩, ⟨0, 1⟩, ⟨0, 1⟩)

def vadd (a b : Vec3) : Vec3 := (a.1 + b.1, a.2.1 + b.2.1, a.2.2 + b.2.2)

def vsub (a b : Vec3) : Vec3 := (a.1 - b.1, a.2.1 - b.2.1, a.2.2 - b.2.2)

def cross (a b : Vec3) : Vec3 :=
  (a.2.1 * b.2.2 - a.2.2 * b.2.1,
   a.2.2 * b.1 - a.1 * b.2.2,
   a.1 * b.2.1 - a.2.1 * b.1)

/-- Squared Euclidean distance between two points. -/
def distSq (a b : Vec3) : Frac :=
  (a.1 - b.1) * (a.1 - b.1) + (a.2.1 - b.2.1) * (a.2.1 - b.2.1) +
    (a.2.2 - b.2.2) * (a.2.2 - b.2.2)

/-- The fields of `igl.read_obj`'s result that `load_mesh` consumes:
vertex positions `v`, texture coordinates `vt` and triangle faces `f`
(the normal/index arrays `vn`, `ft`, `fn` are returned by `igl.read_obj`
but discarded by `load_mesh`). -/
structure ObjData where
  v : List Vec3
  vt : List UV
  f : List Face
deriving DecidableEq, Repr

/-- Does face `t` reference vertex index `i`? -/
def faceHas (t : Face) (i : ℕ) : Bool :=
  t.1 == i || t.2.1 == i || t.2.2 == i

/-- Is vertex index `i` referenced by some face? -/
def referenced (f : List Face) (i : ℕ) : Bool :=
  f.any (fun t => faceHas t i)

/-- New index of old vertex `i` after unreferenced vertices are removed:
the number of referenced indices below `i`. -/
def remapIdx (f : List Face) (i : ℕ) : ℕ :=
  ((List.range i).filter (fun j => referenced f j)).length

/-- Model of `igl.remove_unreferenced`: drop every vertex that no face
references, keeping the referenced ones in order, and remap the face
indices accordingly (only the vertex/face outputs used by `load_mesh`
are modelled). -/
def remove_unreferenced (v : List Vec3) (f : List Face) : List Vec3 × List Face :=
  (((List.range v.length).filter (fun i => referenced f i)).map (fun i => v.getD i v3zero),
   f.map (fun t => (remapIdx f t.1, remapIdx f t.2.1, remapIdx f t.2.2)))

/-- Unnormalised normal of one face (cross product of two edges). -/
def faceNormal (v : List Vec3) (t : Face) : Vec3 :=
  cross (vsub (v.getD t.2.1 v3zero) (v.getD t.1 v3zero))
        (vsub (v.getD t.2.2 v3zero) (v.getD t.1 v3zero))

/-- Model of `igl.per_vertex_normals`: one normal per vertex, accumulated
from the incident faces' normals (the final unit normalisation involves a
square root, which has no exact rational value; it does not affect row
count or which mesh the normals are derived from, the facts used here). -/
def per_vertex_normals (v : List Vec3) (f : List Face) : List Vec3 :=
  (List.range v.length).map
    (fun i => (f.filter (fun t => faceHas t i)).foldl (fun acc t => vadd acc (faceNormal v t)) v3zero)

/-- Result of `load_mesh`: cleaned vertices and faces, normals recomputed
from the cleaned mesh, raw texture coordinates, and whether the
unreferenced-vertex warning was printed. -/
structure LoadedMesh where
  v : List Vec3
  f : List Face
  normals : List Vec3
  uvs : List UV
  warned : Bool
deriving DecidableEq, Repr

/-- `load_mesh` from `src/main.py`: read the OBJ data, remove unreferenced
vertices (warning when the vertex count changed), recompute per-vertex
normals from the cleaned mesh, and return the cleaned arrays together with
the raw `vt` array. -/
def load_mesh (m : ObjData) : LoadedMesh :=
  { v := (remove_unreferenced m.v m.f).1
    f := (remove_unreferenced m.v m.f).2
    normals := per_vertex_normals (remove_unreferenced m.v m.f).1 (remove_unreferenced m.v m.f).2
    uvs := m.vt
    warned := decide (m.v.length ≠ (remove_unreferenced m.v m.f).1.length) }

/-- Modelled from the spec: the ephemeral per-query result of the
closest-point search over the source triangle soup (spec §3
"Correspondence") — closest source triangle, barycentric coordinates of
the closest point, squared distance from the target vertex, and the angle
(in degrees) between the target vertex normal and the
barycentric-interpolated source normal at the closest point.  The
geometric kernel computing it (BVH query, square root, arccos) is
irrational-valued, so the matcher below takes the per-vertex
correspondence as a parameter. -/
structure Corr where
  tri : Face
  bary : Frac × Frac × Frac
  d2 : Frac
  angleDeg : Frac
deriving Repr

/-- Scale a weight vector by a scalar. -/
def wScale (c : Frac) (w : List Frac) : List Frac := w.map (fun x => c * x)

/-- Add two weight vectors componentwise. -/
def wAdd (a b : List Frac) : List Frac := List.zipWith (fun x y => x + y) a b

/-- Barycentric interpolation of the source weight vectors at the three
vertices of a triangle. -/
def baryInterp (w : List (List Frac)) (t : Face) (b : Frac × Frac × Frac) : List Frac :=
  wAdd (wAdd (wScale b.1 (w.getD t.1 [])) (wScale b.2.1 (w.getD t.2.1 [])))
       (wScale b.2.2 (w.getD t.2.2 []))

/-- Modelled from the spec: `find_matches_closest_surface` from the missing
`utilities` module (spec §4.1).  For every target vertex the closest-point
correspondence `corr` is consulted; the vertex is marked matched iff its
squared distance is ≤ `distThresholdSquared` AND its normal angle is
≤ `angleThresholdDegrees`, and its provisional weight vector is the
barycentric interpolation of the source weights over the closest source
triangle.  (The source mesh arrays enter through `corr` and
`skin_weights`; unmatched provisional entries are unspecified by the
spec and here hold the same interpolation.) -/
def find_matches_closest_surface (corr : ℕ → Corr) (skin_weights : List (List Frac))
    (targetVerts : List Vec3) (distThresholdSquared angleThresholdDegrees : Frac) :
    List Bool × List (List Frac) :=
  ((List.range targetVerts.length).map
     (fun i => Frac.le (corr i).d2 distThresholdSquared &&
               Frac.le (corr i).angleDeg angleThresholdDegrees),
   (List.range targetVerts.length).map
     (fun i => baryInterp skin_weights (corr i).tri (corr i).bary))

/-- Are vertices `i` and `j` distinct and both on some common face
(mesh-graph adjacency)? -/
def edgeAdj (f : List Face) (i j : ℕ) : Bool :=
  decide (i ≠ j) && f.any (fun t => faceHas t i && faceHas t j)

/-- Graph neighbours of vertex `i` among the `n` vertices. -/
def neighbors (f : List Face) (n i : ℕ) : List ℕ :=
  (List.range n).filter (fun j => edgeAdj f i j)

/-- One breadth step: all vertices in `s` or adjacent to a vertex of `s`. -/
def expandStep (f : List Face) (n : ℕ) (s : List ℕ) : List ℕ :=
  (List.range n).filter (fun j => s.contains j || s.any (fun i => edgeAdj f i j))

/-- Vertices reachable from `s` in at most `k` steps (fuelled breadth-first
closure; `k = n` saturates). -/
def reach (f : List Face) (n : ℕ) : ℕ → List ℕ → List ℕ
  | 0, s => s
  | k + 1, s => reach f n k (expandStep f n s)

/-- Does the connected component of vertex `i` contain a matched vertex? -/
def componentAnchored (f : List Face) (matched : List Bool) (n i : ℕ) : Bool :=
  (reach f n n [i]).any (fun j => matched.getD j false)

/-- Modelled from the spec: the Inpainter's success flag (spec §4.2) — the
solve succeeds iff every connected component of the target mesh contains
at least one matched (anchoring) vertex; otherwise the system is singular
and `success = false` is returned instead of raising. -/
def inpaintSuccess (f : List Face) (matched : List Bool) (n : ℕ) : Bool :=
  (List.range n).all (fun i => componentAnchored f matched n i)

/-- Mean of the neighbour weight vectors of vertex `i` (previous-iteration
values); the vertex's own row when it has no neighbour. -/
def neighborMean (f : List Face) (n i : ℕ) (w : List (List Frac)) : List Frac :=
  if (neighbors f n i).isEmpty then w.getD i []
  else
    ((neighbors f n i).foldl (fun acc j => wAdd acc (w.getD j []))
        (List.replicate (w.getD i []).length ⟨0, 1⟩)).map
      (fun x => x / ⟨((neighbors f n i).length : Int), 1⟩)

/-- One Jacobi round of the diffusion solve: matched rows are Dirichlet
constraints and stay fixed, unmatched rows move to the mean of their
neighbours' previous-iteration values. -/
def jacobiStep (f : List Face) (matched : List Bool) (n : ℕ)
    (w : List (List Frac)) : List (List Frac) :=
  (List.range n).map
    (fun i => if matched.getD i false then w.getD i [] else neighborMean f n i w)

/-- Iterate a function `k` times (the iteration budget of the solver). -/
def iterApply {α : Type} (g : α → α) : ℕ → α → α
  | 0, a => a
  | k + 1, a => g (iterApply g k a)

/-- Modelled from the spec: `inpaint` from the missing `utilities` module
(spec §4.2).  Solves the graph-Laplacian system with Dirichlet constraints
at matched vertices by Jacobi iteration (one round per vertex as its
budget) and reports `success = false` exactly when some connected
component has no matched vertex; it never raises. -/
def inpaint (v : List Vec3) (f : List Face) (w : List (List Frac))
    (matched : List Bool) : List (List Frac) × Bool :=
  (iterApply (jacobiStep f matched v.length) v.length w,
   inpaintSuccess f matched v.length)

/-- Is vertex `i` in the boundary band (spec §4.3): an unmatched vertex
within `dist` Euclidean distance of some matched vertex, or a matched
vertex adjacent to an unmatched one. -/
def inBand (v : List Vec3) (f : List Face) (matched : List Bool) (dist : Frac)
    (n i : ℕ) : Bool :=
  if matched.getD i false then
    (neighbors f n i).any (fun j => !(matched.getD j false))
  else
    (List.range n).any
      (fun j => matched.getD j false &&
                Frac.le (distSq (v.getD i v3zero) (v.getD j v3zero)) (dist * dist))

/-- One Jacobi-style smoothing round: band vertices are relaxed towards the
mean of their neighbours' previous-iteration values with factor `alpha`;
vertices outside the band are never modified. -/
def smoothStep (f : List Face) (band : List Bool) (alpha : Frac) (n : ℕ)
    (w : List (List Frac)) : List (List Frac) :=
  (List.range n).map
    (fun i => if band.getD i false then
                wAdd (wScale (⟨1, 1⟩ - alpha) (w.getD i []))
                     (wScale alpha (neighborMean f n i w))
              else w.getD i [])

/-- Modelled from the spec: `smooth` from the missing `utilities` module
(spec §4.3).  Computes the boundary band once from topology and distance,
then runs `numIterations` Jacobi relaxation rounds with factor `alpha`,
returning the smoothed field and the band mask. -/
def smooth (v : List Vec3) (f : List Face) (w : List (List Frac))
    (matched : List Bool) (distanceThreshold : Frac) (numIterations : ℕ)
    (alpha : Frac) : List (List Frac) × List Bool :=
  (iterApply
     (smoothStep f
        ((List.range v.length).map (fun i => inBand v f matched distanceThreshold v.length i))
        alpha v.length)
     numIterations w,
   (List.range v.length).map (fun i => inBand v f matched distanceThreshold v.length i))

/-- The arguments `main` passes to `smooth` (besides the target mesh). -/
structure SmoothArgs where
  weights : List (List Frac)
  matchedFlags : List Bool
  dist : Frac
  iters : ℕ
  alpha : Frac
deriving DecidableEq, Repr

/-- Observable trace of one run of `main` from `src/main.py`: the loaded
meshes, the derived thresholds, the arguments and results of each pipeline
stage, the error/exit behaviour, and the JSON data written to the output
file (an association list of key/value pairs; values are the
`tolist()`-style nested number lists). -/
structure MainTrace where
  source : LoadedMesh
  target : LoadedMesh
  skinWeights : List (List Frac)
  distanceThreshold : Frac
  distanceThresholdSquared : Frac
  angleThresholdDegrees : Frac
  matcherD2Arg : Frac
  matcherAngleArg : Frac
  matched : List Bool
  interpolatedSkinWeights : List (List Frac)
  inpaintWeightsArg : List (List Frac)
  inpaintMatchedArg : List Bool
  inpaintedWeights : List (List Frac)
  inpaintSuccessFlag : Bool
  errorPrinted : Bool
  exitCode : Option ℕ
  smoothArgs : Option SmoothArgs
  smoothedWeights : Option (List (List Frac))
  vertexIdsToSmooth : Option (List Bool)
  outputData : Option (List (String × List (List Frac)))

/-- The source skin weights `main` builds: one row `[0.3, 0.7]` per source
vertex (`np.ones((n,2))` with the two columns overwritten). -/
def skinWeightsFor (nVerts : ℕ) : List (List Frac) :=
  List.replicate nVerts [⟨3, 10⟩, ⟨7, 10⟩]

/-- `distance_threshold` in `main`: 0.05 times the bounding-box diagonal of
the target mesh.  The diagonal (`igl.bounding_box_diagonal`, a square
root) is supplied as the external function `bd`. -/
def dthr (bd : List Vec3 → Frac) (tm : ObjData) : Frac :=
  Frac.mk 1 20 * bd (load_mesh tm).v

def vec3ToList (a : Vec3) : List Frac := [a.1, a.2.1, a.2.2]

def faceToList (t : Face) : List Frac := [⟨(t.1 : Int), 1⟩, ⟨(t.2.1 : Int), 1⟩, ⟨(t.2.2 : Int), 1⟩]

def uvToList (p : UV) : List Frac := [p.1, p.2]

/-- The `mesh_data` dictionary `main` serialises: exactly the four keys
`vertices`, `faces`, `normals`, `uvs`, holding the (cleaned) target mesh
arrays. -/
def meshDataJson (m : LoadedMesh) : List (String × List (List Frac)) :=
  [("vertices", m.v.map vec3ToList),
   ("faces", m.f.map faceToList),
   ("normals", m.normals.map vec3ToList),
   ("uvs", m.uvs.map uvToList)]

/-- The Matcher call in `main` (stage 1). -/
def pipeMatch (bd : List Vec3 → Frac) (corr : ℕ → Corr) (sm tm : ObjData) :
    List Bool × List (List Frac) :=
  find_matches_closest_surface corr (skinWeightsFor (load_mesh sm).v.length)
    (load_mesh tm).v (dthr bd tm * dthr bd tm) 30

/-- The Inpainter call in `main` (stage 2), consuming stage 1's output. -/
def pipeInpaint (bd : List Vec3 → Frac) (corr : ℕ → Corr) (sm tm : ObjData) :
    List (List Frac) × Bool :=
  inpaint (load_mesh tm).v (load_mesh tm).f (pipeMatch bd corr sm tm).2
    (pipeMatch bd corr sm tm).1

/-- The Smoother call in `main` (stage 3), consuming stage 2's output with
the hardcoded `num_smooth_iter_steps=10` and `smooth_alpha=0.2`. -/
def pipeSmooth (bd : List Vec3 → Frac) (corr : ℕ → Corr) (sm tm : ObjData) :
    List (List Frac) × List Bool :=
  smooth (load_mesh tm).v (load_mesh tm).f (pipeInpaint bd corr sm tm).1
    (pipeMatch bd corr sm tm).1 (dthr bd tm) 10 ⟨1, 5⟩

/-- Trace of the failing run: `inpaint` reported `success = false`, so
`main` prints `[Error] Inpainting failed.` and terminates via `exit(0)`
without calling `smooth` and without writing the output file. -/
def failTrace (bd : List Vec3 → Frac) (corr : ℕ → Corr) (sm tm : ObjData) : MainTrace :=
  { source := load_mesh sm
    target := load_mesh tm
    skinWeights := skinWeightsFor (load_mesh sm).v.length
    distanceThreshold := dthr bd tm
    distanceThresholdSquared := dthr bd tm * dthr bd tm
    angleThresholdDegrees := 30
    matcherD2Arg := dthr bd tm * dthr bd tm
    matcherAngleArg := 30
    matched := (pipeMatch bd corr sm tm).1
    interpolatedSkinWeights := (pipeMatch bd corr sm tm).2
    inpaintWeightsArg := (pipeMatch bd corr sm tm).2
    inpaintMatchedArg := (pipeMatch bd corr sm tm).1
    inpaintedWeights := (pipeInpaint bd corr sm tm).1
    inpaintSuccessFlag := false
    errorPrinted := true
    exitCode := some 0
    smoothArgs := none
    smoothedWeights := none
    vertexIdsToSmooth := none
    outputData := none }

/-- Trace of the successful run: `smooth` is called with the inpainted
weights, the matcher flags, the unsquared distance threshold, 10
iterations and alpha 0.2, and the target mesh data are written out. -/
def successTrace (bd : List Vec3 → Frac) (corr : ℕ → Corr) (sm tm : ObjData) : MainTrace :=
  { source := load_mesh sm
    target := load_mesh tm
    skinWeights := skinWeightsFor (load_mesh sm).v.length
    distanceThreshold := dthr bd tm
    distanceThresholdSquared := dthr bd tm * dthr bd tm
    angleThresholdDegrees := 30
    matcherD2Arg := dthr bd tm * dthr bd tm
    matcherAngleArg := 30
    matched := (pipeMatch bd corr sm tm).1
    interpolatedSkinWeights := (pipeMatch bd corr sm tm).2
    inpaintWeightsArg := (pipeMatch bd corr sm tm).2
    inpaintMatchedArg := (pipeMatch bd corr sm tm).1
    inpaintedWeights := (pipeInpaint bd corr sm tm).1
    inpaintSuccessFlag := true
    errorPrinted := false
    exitCode := none
    smoothArgs := some ⟨(pipeInpaint bd corr sm tm).1, (pipeMatch bd corr sm tm).1,
                        dthr bd tm, 10, ⟨1, 5⟩⟩
    smoothedWeights := some (pipeSmooth bd corr sm tm).1
    vertexIdsToSmooth := some (pipeSmooth bd corr sm tm).2
    outputData := some (meshDataJson (load_mesh tm)) }

/-- `main` from `src/main.py` as a trace function.  External collaborators
are parameters: `bd` is `igl.bounding_box_diagonal` and `corr` the
closest-point geometric kernel of the matcher; `so`/`to` are the parsed
OBJ files.  Visualisation calls (polyscope) have no observable effect on
the trace and are omitted. -/
def mainRun (bd : List Vec3 → Frac) (corr : ℕ → Corr) (sm tm : ObjData) : MainTrace :=
  if (pipeInpaint bd corr sm tm).2 = true then successTrace bd corr sm tm
  else failTrace bd corr sm tm

/-- Concrete OBJ data: a unit triangle, all vertices referenced. -/
def objTriA : ObjData :=
  { v := [(0, 0, 0), (1, 0, 0), (0, 1, 0)], vt := [(0, 0)], f := [(0, 1, 2)] }

/-- Concrete OBJ data: a larger triangle, all vertices referenced. -/
def objTriB : ObjData :=
  { v := [(0, 0, 0), (2, 0, 0), (0, 2, 0)], vt := [], f := [(0, 1, 2)] }

/-- Concrete OBJ data with an unreferenced vertex (index 2). -/
def objUnref : ObjData :=
  { v := [(0, 0, 0), (1, 0, 0), (0, 1, 0), (1, 1, 0)]
    vt := [(0, 0), (1, 1)]
    f := [(0, 1, 3)] }

/-- Bounding-box-diagonal stub returning 1. -/
def bdOne : List Vec3 → Frac := fun _ => 1

/-- Bounding-box-diagonal stub returning 2. -/
def bdTwo : List Vec3 → Frac := fun _ => 2

/-- Correspondence oracle whose squared distances are far beyond any
threshold used here: nothing matches. -/
def corrFar : ℕ → Corr := fun _ => ⟨(0, 1, 2), (1, 0, 0), 100, 0⟩

/-- Correspondence oracle at zero distance and zero angle: everything
matches. -/
def corrNear : ℕ → Corr := fun _ => ⟨(0, 1, 2), (1, 0, 0), 0, 0⟩

/-- A second everything-matches oracle with different barycentric
coordinates (hence different interpolated weights). -/
def corrNear2 : ℕ → Corr := fun _ => ⟨(0, 1, 2), (0, 1, 0), 0, 0⟩

/-- Concrete target vertices for the inpainting example. -/
def wtV3 : List Vec3 := [(0, 0, 0), (1, 0, 0), (0, 1, 0)]

/-- Concrete target faces for the inpainting example. -/
def wtF : List Face := [(0, 1, 2)]

/-- Concrete provisional weights for the inpainting example. -/
def wtW : List (List Frac) := [[⟨3, 10⟩, ⟨7, 10⟩], [0, 0], [⟨3, 10⟩, ⟨7, 10⟩]]

/-- Concrete matched flags for the inpainting example (vertex 1 unmatched). -/
def wtM : List Bool := [true, false, true]

/-- `Frac.le` agrees with the rational order whenever both denominators are
positive. -/
theorem Frac.le_iff_toRat {a b : Frac} (ha : 0 < a.d) (hb : 0 < b.d) :
    Frac.le a b = true ↔ a.toRat ≤ b.toRat := by
  have ha' : (0 : ℚ) < (a.d : ℚ) := by exact_mod_cast ha
  have hb' : (0 : ℚ) < (b.d : ℚ) := by exact_mod_cast hb
  rw [Frac.le, decide_eq_true_iff, Frac.toRat, Frac.toRat, div_le_div_iff₀ ha' hb']
  exact_mod_cast Iff.rfl

/-- Indexing a map over `List.range`. -/
theorem getD_map_range {α : Type} (g : ℕ → α) (d : α) {i n : ℕ} (h : i < n) :
    ((List.range n).map g).getD i d = g i := by
  rw [List.getD_eq_getElem?_getD, List.getElem?_map, List.getElem?_range h]
  rfl

/-- The number of indices below `a` passing `p` is monotone in `a`. -/
theorem length_filterRange_mono (p : ℕ → Bool) {a b : ℕ} (h : a ≤ b) :
    ((List.range a).filter p).length ≤ ((List.range b).filter p).length := by
  induction b with
  | zero =>
    have : a = 0 := Nat.le_zero.mp h
    simp [this]
  | succ b ih =>
    have hsplit : ((List.range (b + 1)).filter p).length =
        ((List.range b).filter p).length + ([b].filter p).length := by
      rw [List.range_succ, List.filter_append, List.length_append]
    rcases Nat.eq_or_lt_of_le h with he | hlt
    · rw [he]
    · have := ih (Nat.lt_succ_iff.mp hlt)
      omega

/-- A referenced index below `m` remaps below the cleaned vertex count. -/
theorem remapIdx_lt (f : List Face) {i m : ℕ} (him : i < m)
    (hr : referenced f i = true) :
    remapIdx f i < ((List.range m).filter (fun j => referenced f j)).length := by
  have h1 : ((List.range (i + 1)).filter (fun j => referenced f j)).length =
      remapIdx f i + 1 := by
    rw [List.range_succ, List.filter_append, List.length_append, remapIdx]
    simp [List.filter_cons, hr]
  have h2 := length_filterRange_mono (fun j => referenced f j)
    (show i + 1 ≤ m from him)
  omega

/-- Every position in the filtered range is the remapped image of some
passing index. -/
theorem filterRange_surj (p : ℕ → Bool) :
    ∀ n k, k < ((List.range n).filter p).length →
      ∃ i, i < n ∧ p i = true ∧ ((List.range i).filter p).length = k := by
  intro n
  induction n with
  | zero => simp
  | succ n ih =>
    intro k hk
    have hsplit : ((List.range (n + 1)).filter p).length =
        ((List.range n).filter p).length + ([n].filter p).length := by
      rw [List.range_succ, List.filter_append, List.length_append]
    by_cases hp : p n = true
    · have hone : ([n].filter p).length = 1 := by simp [List.filter_cons, hp]
      rcases Nat.lt_or_ge k ((List.range n).filter p).length with hlt | hge
      · obtain ⟨i, h1, h2, h3⟩ := ih k hlt
        exact ⟨i, Nat.lt_succ_of_lt h1, h2, h3⟩
      · have hkeq : ((List.range n).filter p).length = k := by omega
        exact ⟨n, Nat.lt_succ_self n, hp, hkeq⟩
    · have hzero : ([n].filter p).length = 0 := by
        simp [List.filter_cons, hp]
      have hk' : k < ((List.range n).filter p).length := by omega
      obtain ⟨i, h1, h2, h3⟩ := ih k hk'
      exact ⟨i, Nat.lt_succ_of_lt h1, h2, h3⟩

/-- The cleaned vertex list has one entry per referenced index. -/
theorem remove_unreferenced_length (v : List Vec3) (f : List Face) :
    (remove_unreferenced v f).1.length =
      ((List.range v.length).filter (fun j => referenced f j)).length := by
  simp [remove_unreferenced]

/-- Jacobi iteration never touches a matched (Dirichlet) row. -/
theorem iterApply_jacobi_matched (f : List Face) (matched : List Bool) (n : ℕ)
    (w : List (List Frac)) (k : ℕ) :
    ∀ i, i < n → matched.getD i false = true →
      (iterApply (jacobiStep f matched n) k w).getD i [] = w.getD i [] := by
  induction k with
  | zero => intro i _ _; rfl
  | succ k ih =>
    intro i hin hm
    show (jacobiStep f matched n (iterApply (jacobiStep f matched n) k w)).getD i [] =
      w.getD i []
    rw [jacobiStep, getD_map_range _ _ hin]
    simp only [hm, if_true]
    exact ih i hin hm

/-- Claim C1: if `inpaint` returns `success = false`, `main` prints the
`[Error] Inpainting failed.` diagnostic and terminates via `exit(0)`,
without calling `smooth` and without writing the output file; the core
(`inpaint`, a total function here) signals the condition only through its
returned flag. -/
theorem c1_inpaint_failure_aborts (bd : List Vec3 → Frac) (corr : ℕ → Corr)
    (sm tm : ObjData)
    (h : (mainRun bd corr sm tm).inpaintSuccessFlag = false) :
    (mainRun bd corr sm tm).errorPrinted = true ∧
    (mainRun bd corr sm tm).exitCode = some 0 ∧
    (mainRun bd corr sm tm).smoothArgs = none ∧
    (mainRun bd corr sm tm).smoothedWeights = none ∧
    (mainRun bd corr sm tm).outputData = none := by
  by_cases hb : (pipeInpaint bd corr sm tm).2 = true
  · rw [mainRun, if_pos hb] at h
    exact absurd h (by simp [successTrace])
  · rw [mainRun, if_neg hb]
    exact ⟨rfl, rfl, rfl, rfl, rfl⟩

/-- Claim C1 witness: a concrete run (no vertex matches, so the target's
single connected component is unanchored) on which the failure path is
taken. -/
theorem c1_witness :
    (mainRun bdOne corrFar objTriA objTriA).errorPrinted = true ∧
    (mainRun bdOne corrFar objTriA objTriA).exitCode = some 0 ∧
    (mainRun bdOne corrFar objTriA objTriA).smoothArgs = none ∧
    (mainRun bdOne corrFar objTriA objTriA).smoothedWeights = none ∧
    (mainRun bdOne corrFar objTriA objTriA).outputData = none :=
  c1_inpaint_failure_aborts bdOne corrFar objTriA objTriA (by decide)

/-- Claim C2: the three stages run strictly one-directionally: the Matcher
consumes the loaded meshes and source weights; its outputs (`matched`,
`interpolated_skin_weights`) are exactly the weight/flag inputs of
`inpaint`; and `inpaint`'s output together with the same `matched` flags
are exactly the weight/flag inputs of `smooth`, whose result is what the
trace records — no stage reads a later stage's output. -/
theorem c2_pipeline_dataflow (bd : List Vec3 → Frac) (corr : ℕ → Corr)
    (sm tm : ObjData) :
    (mainRun bd corr sm tm).matched =
      (find_matches_closest_surface corr (mainRun bd corr sm tm).skinWeights
        (mainRun bd corr sm tm).target.v (mainRun bd corr sm tm).matcherD2Arg
        (mainRun bd corr sm tm).matcherAngleArg).1 ∧
    (mainRun bd corr sm tm).interpolatedSkinWeights =
      (find_matches_closest_surface corr (mainRun bd corr sm tm).skinWeights
        (mainRun bd corr sm tm).target.v (mainRun bd corr sm tm).matcherD2Arg
        (mainRun bd corr sm tm).matcherAngleArg).2 ∧
    (mainRun bd corr sm tm).inpaintWeightsArg =
      (mainRun bd corr sm tm).interpolatedSkinWeights ∧
    (mainRun bd corr sm tm).inpaintMatchedArg = (mainRun bd corr sm tm).matched ∧
    (mainRun bd corr sm tm).inpaintedWeights =
      (inpaint (mainRun bd corr sm tm).target.v (mainRun bd corr sm tm).target.f
        (mainRun bd corr sm tm).inpaintWeightsArg
        (mainRun bd corr sm tm).inpaintMatchedArg).1 ∧
    (mainRun bd corr sm tm).smoothArgs.map SmoothArgs.weights =
      (mainRun bd corr sm tm).smoothArgs.map
        (fun _ => (mainRun bd corr sm tm).inpaintedWeights) ∧
    (mainRun bd corr sm tm).smoothArgs.map SmoothArgs.matchedFlags =
      (mainRun bd corr sm tm).smoothArgs.map (fun _ => (mainRun bd corr sm tm).matched) ∧
    (mainRun bd corr sm tm).smoothedWeights =
      (mainRun bd corr sm tm).smoothArgs.map
        (fun sa => (smooth (mainRun bd corr sm tm).target.v
          (mainRun bd corr sm tm).target.f sa.weights sa.matchedFlags sa.dist
          sa.iters sa.alpha).1) := by
  by_cases hb : (pipeInpaint bd corr sm tm).2 = true
  · rw [mainRun, if_pos hb]
    exact ⟨rfl, rfl, rfl, rfl, rfl, rfl, rfl, rfl⟩
  · rw [mainRun, if_neg hb]
    exact ⟨rfl, rfl, rfl, rfl, rfl, rfl, rfl, rfl⟩

/-- Claim C3 (spec-modelled Inpainter): matched rows are Dirichlet
constraints — the weights `inpaint` returns at matched vertices are the
provisional rows unchanged (structurally, i.e. bit-identical) — and on
success every previously-unmatched vertex has a weight row present (over
the exact-fraction embedding every present value is finite). -/
theorem c3_inpaint_dirichlet (v : List Vec3) (f : List Face)
    (w : List (List Frac)) (matched : List Bool) :
    (∀ i, i < v.length → matched.getD i false = true →
      (inpaint v f w matched).1.getD i [] = w.getD i []) ∧
    ((inpaint v f w matched).2 = true → ∀ i, i < v.length →
      matched.getD i false = false → ((inpaint v f w matched).1[i]?).isSome = true) := by
  constructor
  · intro i hin hm
    exact iterApply_jacobi_matched f matched v.length w v.length i hin hm
  · intro _ i hin _
    obtain ⟨m, hm⟩ : ∃ m, v.length = m + 1 := ⟨v.length - 1, by omega⟩
    have hlen : (inpaint v f w matched).1.length = v.length := by
      show (iterApply (jacobiStep f matched v.length) v.length w).length = v.length
      rw [hm]
      show (jacobiStep f matched (m + 1)
        (iterApply (jacobiStep f matched (m + 1)) m w)).length = m + 1
      rw [jacobiStep, List.length_map, List.length_range]
    rw [List.getElem?_eq_getElem (by omega)]
    rfl

/-- Claim C3 witness: on the concrete triangle with vertex 1 unmatched,
the matched vertex 0 keeps its provisional row and the unmatched vertex 1
receives a row. -/
theorem c3_witness :
    (inpaint wtV3 wtF wtW wtM).1.getD 0 [] = wtW.getD 0 [] ∧
    ((inpaint wtV3 wtF wtW wtM).1[1]?).isSome = true :=
  ⟨(c3_inpaint_dirichlet wtV3 wtF wtW wtM).1 0 (by decide) (by decide),
   (c3_inpaint_dirichlet wtV3 wtF wtW wtM).2 (by decide) 1 (by decide) (by decide)⟩

/-- Claim C4 (spec-modelled Matcher): a target vertex is marked matched iff
its squared distance to the closest source point is at most the squared
distance threshold AND its normal angle is at most the angle threshold —
an exact iff, so perturbing either quantity across its threshold flips the
flag. -/
theorem c4_matcher_gate (corr : ℕ → Corr) (sw : List (List Frac)) (tv : List Vec3)
    (d2max amax : Frac) (i : ℕ) (hi : i < tv.length)
    (h1 : 0 < (corr i).d2.d) (h2 : 0 < d2max.d)
    (h3 : 0 < (corr i).angleDeg.d) (h4 : 0 < amax.d) :
    ((find_matches_closest_surface corr sw tv d2max amax).1.getD i false = true) ↔
      ((corr i).d2.toRat ≤ d2max.toRat ∧ (corr i).angleDeg.toRat ≤ amax.toRat) := by
  show (((List.range tv.length).map
      (fun j => Frac.le (corr j).d2 d2max && Frac.le (corr j).angleDeg amax)).getD i false
      = true) ↔ _
  rw [getD_map_range _ _ hi, Bool.and_eq_true, Frac.le_iff_toRat h1 h2,
    Frac.le_iff_toRat h3 h4]

/-- Claim C4 witness: the gate instantiated on a concrete vertex and
thresholds. -/
theorem c4_witness :
    ((find_matches_closest_surface corrNear (skinWeightsFor 3) wtV3 1 30).1.getD 0 false
      = true) ↔
      ((corrNear 0).d2.toRat ≤ (1 : Frac).toRat ∧
       (corrNear 0).angleDeg.toRat ≤ (30 : Frac).toRat) :=
  c4_matcher_gate corrNear (skinWeightsFor 3) wtV3 1 30 0 (by decide) (by decide)
    (by decide) (by decide) (by decide)

/-- Claim C5 counterexample: two pipeline runs with entirely different
run inputs (meshes, bounding-box diagonal, correspondences) both pass
`num_smooth_iter_steps = 10` and `smooth_alpha = 0.2` to `smooth` — the
call site in `main` hardcodes these literals, so they are not values the
pipeline's caller chooses per run. -/
theorem c5_counterexample :
    (mainRun bdOne corrNear objTriA objTriA).smoothArgs.map SmoothArgs.iters =
      some 10 ∧
    (mainRun bdOne corrNear objTriA objTriA).smoothArgs.map SmoothArgs.alpha =
      some ⟨1, 5⟩ ∧
    (mainRun bdTwo corrNear2 objTriB objTriB).smoothArgs.map SmoothArgs.iters =
      some 10 ∧
    (mainRun bdTwo corrNear2 objTriB objTriB).smoothArgs.map SmoothArgs.alpha =
      some ⟨1, 5⟩ ∧
    objTriA ≠ objTriB := by
  refine ⟨by decide, by decide, by decide, by decide, by decide⟩

/-- Claim C5 (amended): `numIterations` and `alpha` are parameters of the
`smooth` function (not hardcoded inside the Smoother), and the alpha value
used, 0.2, lies in (0,1]; but `main` passes the fixed literals 10 and 0.2
on every invocation, so they are not tunable per pipeline run. -/
theorem c5_smooth_params (bd : List Vec3 → Frac) (corr : ℕ → Corr)
    (sm tm : ObjData) :
    (mainRun bd corr sm tm).smoothArgs.map SmoothArgs.iters =
      (mainRun bd corr sm tm).smoothArgs.map (fun _ => 10) ∧
    (mainRun bd corr sm tm).smoothArgs.map SmoothArgs.alpha =
      (mainRun bd corr sm tm).smoothArgs.map (fun _ => (⟨1, 5⟩ : Frac)) ∧
    0 < (⟨1, 5⟩ : Frac).toRat ∧ (⟨1, 5⟩ : Frac).toRat ≤ 1 := by
  refine ⟨?_, ?_, by norm_num [Frac.toRat], by norm_num [Frac.toRat]⟩ <;>
  · by_cases hb : (pipeInpaint bd corr sm tm).2 = true
    · rw [mainRun, if_pos hb]
      rfl
    · rw [mainRun, if_neg hb]
      rfl

/-- Claim C6: `load_mesh` removes unreferenced vertices, printing a warning
exactly when the vertex count changed; given in-bounds input faces, the
cleaned arrays satisfy the invariant that every face index is within
bounds of the vertex sequence and every vertex is referenced by some
face. -/
theorem c6_load_mesh_invariant (m : ObjData)
    (hb : ∀ t ∈ m.f, t.1 < m.v.length ∧ t.2.1 < m.v.length ∧ t.2.2 < m.v.length) :
    (∀ t ∈ (load_mesh m).f, t.1 < (load_mesh m).v.length ∧
      t.2.1 < (load_mesh m).v.length ∧ t.2.2 < (load_mesh m).v.length) ∧
    (∀ k, k < (load_mesh m).v.length → ∃ t ∈ (load_mesh m).f, faceHas t k = true) ∧
    ((load_mesh m).warned = true ↔ m.v.length ≠ (load_mesh m).v.length) := by
  have hvlen : (load_mesh m).v.length =
      ((List.range m.v.length).filter (fun j => referenced m.f j)).length :=
    remove_unreferenced_length m.v m.f
  refine ⟨?_, ?_, ?_⟩
  · intro t' ht'
    have ht'' : t' ∈ m.f.map
        (fun t => (remapIdx m.f t.1, remapIdx m.f t.2.1, remapIdx m.f t.2.2)) := ht'
    obtain ⟨t, htm, hteq⟩ := List.mem_map.mp ht''
    obtain ⟨hb1, hb2, hb3⟩ := hb t htm
    have hr1 : referenced m.f t.1 = true :=
      List.any_eq_true.mpr ⟨t, htm, by simp [faceHas]⟩
    have hr2 : referenced m.f t.2.1 = true :=
      List.any_eq_true.mpr ⟨t, htm, by simp [faceHas]⟩
    have hr3 : referenced m.f t.2.2 = true :=
      List.any_eq_true.mpr ⟨t, htm, by simp [faceHas]⟩
    rw [← hteq, hvlen]
    exact ⟨remapIdx_lt m.f hb1 hr1, remapIdx_lt m.f hb2 hr2, remapIdx_lt m.f hb3 hr3⟩
  · intro k hk
    rw [hvlen] at hk
    obtain ⟨i, hin, hp, hremap⟩ :=
      filterRange_surj (fun j => referenced m.f j) m.v.length k hk
    obtain ⟨t, htm, hft⟩ := List.any_eq_true.mp hp
    refine ⟨(remapIdx m.f t.1, remapIdx m.f t.2.1, remapIdx m.f t.2.2),
      List.mem_map.mpr ⟨t, htm, rfl⟩, ?_⟩
    have hik : remapIdx m.f i = k := hremap
    simp only [faceHas, Bool.or_eq_true, beq_iff_eq] at hft
    simp only [faceHas, Bool.or_eq_true, beq_iff_eq]
    rcases hft with (h | h) | h
    · exact Or.inl (Or.inl (by rw [h]; exact hik))
    · exact Or.inl (Or.inr (by rw [h]; exact hik))
    · exact Or.inr (by rw [h]; exact hik)
  · show decide (m.v.length ≠ (remove_unreferenced m.v m.f).1.length) = true ↔ _
    rw [decide_eq_true_iff]
    exact Iff.rfl

/-- Claim C6 witness: a concrete mesh whose vertex 2 is unreferenced; the
warning fires exactly because the vertex count changed, and the cleaned
first face is in bounds. -/
theorem c6_witness :
    ((load_mesh objUnref).warned = true ↔
      objUnref.v.length ≠ (load_mesh objUnref).v.length) :=
  (c6_load_mesh_invariant objUnref (by decide)).2.2

/-- Claim C7: `load_mesh` derives the normals from the cleaned mesh — the
returned normals array is `per_vertex_normals` applied to the cleaned
vertices and faces, with exactly one row per returned vertex. -/
theorem c7_normals_from_cleaned (m : ObjData) :
    (load_mesh m).normals = per_vertex_normals (load_mesh m).v (load_mesh m).f ∧
    (load_mesh m).normals.length = (load_mesh m).v.length :=
  ⟨rfl, by
    show (per_vertex_normals (remove_unreferenced m.v m.f).1
      (remove_unreferenced m.v m.f).2).length = (remove_unreferenced m.v m.f).1.length
    rw [per_vertex_normals, List.length_map, List.length_range]⟩

/-- Claim C8: on success the JSON written to the output file holds exactly
the four keys `vertices`, `faces`, `normals`, `uvs` with the cleaned
target-mesh data; on failure nothing is written; and the written content
does not depend on the matcher correspondences (hence not on any computed
weight field). -/
theorem c8_output_serialization (bd : List Vec3 → Frac) (corr corr2 : ℕ → Corr)
    (sm tm : ObjData) :
    ((mainRun bd corr sm tm).outputData =
      if (mainRun bd corr sm tm).inpaintSuccessFlag = true then
        some (meshDataJson (load_mesh tm)) else none) ∧
    ((mainRun bd corr sm tm).outputData.map (fun l => l.map Prod.fst) =
      if (mainRun bd corr sm tm).inpaintSuccessFlag = true then
        some ["vertices", "faces", "normals", "uvs"] else none) ∧
    ((mainRun bd corr sm tm).inpaintSuccessFlag =
        (mainRun bd corr2 sm tm).inpaintSuccessFlag →
      (mainRun bd corr sm tm).outputData = (mainRun bd corr2 sm tm).outputData) := by
  by_cases hb : (pipeInpaint bd corr sm tm).2 = true <;>
    by_cases hb2 : (pipeInpaint bd corr2 sm tm).2 = true
  · rw [mainRun, mainRun, if_pos hb, if_pos hb2]
    exact ⟨rfl, rfl, fun _ => rfl⟩
  · rw [mainRun, mainRun, if_pos hb, if_neg hb2]
    exact ⟨rfl, rfl, fun hcontra => absurd hcontra (by simp [successTrace, failTrace])⟩
  · rw [mainRun, mainRun, if_neg hb, if_pos hb2]
    exact ⟨rfl, rfl, fun hcontra => absurd hcontra (by simp [successTrace, failTrace])⟩
  · rw [mainRun, mainRun, if_neg hb, if_neg hb2]
    exact ⟨rfl, rfl, fun _ => rfl⟩

/-- Claim C8 witness: two successful runs differing only in the
correspondence oracle (hence in all computed weights) write the same
output data. -/
theorem c8_witness :
    (mainRun bdOne corrNear objTriA objTriA).outputData =
      (mainRun bdOne corrNear2 objTriA objTriA).outputData :=
  (c8_output_serialization bdOne corrNear corrNear2 objTriA objTriA).2.2 (by decide)

/-- Claim C9: the Matcher's distance gate and the Smoother's band distance
derive from the single value `distance_threshold = 0.05 * bounding-box
diagonal of the target mesh`: the matcher receives its square together
with the 30-degree angle threshold, and `smooth` receives the same value
unsquared. -/
theorem c9_threshold_derivation (bd : List Vec3 → Frac) (corr : ℕ → Corr)
    (sm tm : ObjData) :
    (mainRun bd corr sm tm).distanceThreshold =
      Frac.mk 1 20 * bd (mainRun bd corr sm tm).target.v ∧
    (mainRun bd corr sm tm).matcherD2Arg =
      (mainRun bd corr sm tm).distanceThreshold *
        (mainRun bd corr sm tm).distanceThreshold ∧
    (mainRun bd corr sm tm).matcherAngleArg = 30 ∧
    (mainRun bd corr sm tm).smoothArgs.map SmoothArgs.dist =
      (mainRun bd corr sm tm).smoothArgs.map
        (fun _ => (mainRun bd corr sm tm).distanceThreshold) := by
  by_cases hb : (pipeInpaint bd corr sm tm).2 = true
  · rw [mainRun, if_pos hb]
    exact ⟨rfl, rfl, rfl, rfl⟩
  · rw [mainRun, if_neg hb]
    exact ⟨rfl, rfl, rfl, rfl⟩

/-- Claim C10: `load_mesh` returns the `vt` array read from the OBJ file
unmodified — the uvs are not remapped when unreferenced vertices are
removed, so they reflect the original file's indexing. -/
theorem c10_uvs_passthrough (m : ObjData) : (load_mesh m).uvs = m.vt := rfl
